import Mathlib

/-!
Verification of the route-log parser and interpreter of `sl-cartography`
(`src/cartographer/roadmapper/parse/__main__.py`).

The shallow embedding below translates the source file's functions:
`PosRecord.__init__` (vector parsing and rounding), `parse_stream`
(line classification and record-stream building), and `bake`
(route interpreter, end-of-stream close, and the cleanup pass).
Python integers are `Int`, Python `//` is `Int.fdiv` (floor division),
decimal literals accepted by `RE_VECTOR` are modelled exactly as
integer-scaled decimals, and Python exceptions are `Except String`.

Collaborators that the source imports but whose code is not part of the
two source files (the `Segment`/`DrawMode`/`Point` data holders, the
`MapCoord` vector type, the `KNOWN_AREAS` bounding-box table shape and
its membership test, and the `ALL_COLORS` dict interface) are modelled
from the spec, as marked on each definition; the interpreter is
parameterised over the two lookup tables.
-/

namespace SLCarto

/-- Modelled from the spec: a canvas `Point` (from
`cartographer.roadmapper.road`, not in the sources) is a 2D integer
canvas coordinate. -/
abbrev Point := Int × Int

/-- Modelled from the spec: the draw mode of a segment
(`DrawMode` from `cartographer.roadmapper.road`): `SOLID` or `DASHED`. -/
inductive DrawMode where
  | SOLID
  | DASHED
deriving DecidableEq, Repr

/-- Modelled from the spec: a `Segment` (from
`cartographer.roadmapper.road`) is an ordered list of 2D integer canvas
points plus a draw mode and an optional color identifier.  The color
identifier is kept opaque as a `String`.  `Segment(mode)` in the source
creates a segment with no points and no color; `Segment(mode, color=c)`
passes the color through. -/
structure Segment where
  mode : DrawMode
  color : Option String
  canvas_points : List Point
deriving DecidableEq, Repr

/-- Modelled from the spec: `Segment.add` appends one canvas point at
the end of the segment's ordered point list. -/
def Segment.add (s : Segment) (p : Point) : Segment :=
  { s with canvas_points := s.canvas_points ++ [p] }

/-- Modelled from the spec: a continent bounding box (the values of the
external `KNOWN_AREAS` table): tile-grid origin `(x, y)` and extent
`(width, height)` in 256-unit tiles.  In the source, `bounds[0]` is the
origin x, `bounds[1]` the origin y, and `bounds.height` the height. -/
structure AreaBounds where
  origin_x : Int
  origin_y : Int
  width : Int
  height : Int
deriving DecidableEq, Repr

/-- Modelled from the spec: the membership test `coord in bounds` of a
tile coordinate against a bounding box is inclusive: the box covers the
`width * height` tiles whose corner is the origin. -/
def AreaBounds.memTile (b : AreaBounds) (t : Int × Int) : Bool :=
  decide (b.origin_x ≤ t.1 ∧ t.1 ≤ b.origin_x + b.width - 1 ∧
          b.origin_y ≤ t.2 ∧ t.2 ≤ b.origin_y + b.height - 1)

/-- A located reading, as built by `PosRecord.__init__` after the two
vector strings have been parsed and rounded: region name, optional
parcel name, the two integer triples, and the `(file, line)` source
tag. -/
structure PosRecord where
  region : String
  parcel : Option String
  reg_corner : Int × Int × Int
  local_pos : Int × Int × Int
  source : String × Int
deriving DecidableEq, Repr

/-- A record of the stream fed to `bake`: either a `Command(command,
value, source)` or a `PosRecord`. -/
inductive Rec where
  | cmd (command : String) (value : String) (source : String × Int)
  | pos (p : PosRecord)
deriving DecidableEq, Repr

/-- Route databases.  The source uses
`dict[str, dict[str, list[Segment]]]` built with `defaultdict`; keys
are modelled as `Option String` because `bake` can insert the Python
`None` continent or route as a key (for example `endroute` with no open
route appends under `all_routes[continent][None]`).  Association lists
keep the dict's insertion order; the source only ever creates each key
once, so keys stay distinct. -/
abbrev Routes := List (Option String × List Segment)

/-- A full route database: continent key to routes. -/
abbrev AllRoutes := List (Option String × Routes)

/-- The color table interface (`ALL_COLORS`, external): `get` on a dict
with distinct keys, i.e. first-match association-list lookup. -/
def lookupStr (l : List (String × String)) (k : String) : Option String :=
  match l with
  | [] => none
  | (a, b) :: rest => if a = k then some b else lookupStr rest k

/-- Lookup of a bounding box by exact continent name in the known-areas
table (`KNOWN_AREAS[continent]`). -/
def lookupArea (l : List (String × AreaBounds)) (k : String) : Option AreaBounds :=
  match l with
  | [] => none
  | (a, b) :: rest => if a = k then some b else lookupArea rest k

/-- Python `str.casefold` restricted to the ASCII names this program
handles: lower-casing, character by character. -/
def pyCasefold (s : String) : String := String.mk (s.toList.map Char.toLower)

/-- The `casefolded` dict of `bake`
(`{k.casefold(): k for k in KNOWN_AREAS.keys()}`, later duplicates
winning) followed by `KNOWN_AREAS[...]`: resolve a continent name
case-insensitively to its canonical key and bounding box.  `KNOWN_AREAS`
is a dict, so its keys are distinct and the last matching pair carries
the key's unique bounding box. -/
def casefoldResolve (areas : List (String × AreaBounds)) (q : String) :
    Option (String × AreaBounds) :=
  (areas.filter (fun kv => pyCasefold kv.1 == pyCasefold q)).getLast?

/-- The two read-only tables `bake` consults. -/
structure BakeEnv where
  knownAreas : List (String × AreaBounds)
  allColors : List (String × String)

/-- The interpreter state of `bake`: the `continent`, `bounds`, `route`
and `segment` variables plus the `all_routes` database under
construction.  `bounds := none` models the initial `bounds = set()`
(every membership test on it is false). -/
structure BakeState where
  continent : Option String
  bounds : Option AreaBounds
  route : Option String
  segment : Segment
  allRoutes : AllRoutes
deriving DecidableEq, Repr

/-- A fresh `Segment(DrawMode.SOLID)`. -/
def freshSolid : Segment := { mode := DrawMode.SOLID, color := none, canvas_points := [] }

/-- `routes[route].extend(segs)` on a `defaultdict(list)`: extend the
existing entry, or create it at the end. -/
def routesExtend (rs : Routes) (route : Option String) (segs : List Segment) : Routes :=
  match rs with
  | [] => [(route, segs)]
  | (r, ss) :: rest =>
      if r = route then (r, ss ++ segs) :: rest
      else (r, ss) :: routesExtend rest route segs

/-- `all_routes[conti][route].extend(segs)` on the nested
`defaultdict(lambda: defaultdict(list))`. -/
def dbExtend (db : AllRoutes) (conti : Option String) (route : Option String)
    (segs : List Segment) : AllRoutes :=
  match db with
  | [] => [(conti, [(route, segs)])]
  | (c, rs) :: rest =>
      if c = conti then (c, routesExtend rs route segs) :: rest
      else (c, rs) :: dbExtend rest conti route segs

/-- `all_routes[continent][route].append(segment)`. -/
def dbAppend (db : AllRoutes) (conti : Option String) (route : Option String)
    (seg : Segment) : AllRoutes :=
  dbExtend db conti route [seg]

/-- The saved-routes merge loop at the top of `bake`
(`for conti, routes in saved_routes.items(): for route, segments in
routes.items(): all_routes[conti][route].extend(segments)`).  The
Python loop variable `route` leaks: after a non-trivial merge the
interpreter's `route` variable holds the last route key iterated, so
the merged database is returned together with that leaked value. -/
def mergeSaved (saved : AllRoutes) : AllRoutes × Option String :=
  saved.foldl
    (fun acc cr =>
      cr.2.foldl (fun acc2 rs => (dbExtend acc2.1 cr.1 rs.1 rs.2, rs.1)) acc)
    ([], none)

/-- The state of `bake` when the interpretation loop starts: continent
unset, `bounds = set()`, a fresh `SOLID` segment, and the (possibly
merged) database.  `if saved_routes:` guards the merge, but merging an
empty dict is the identity, so `mergeSaved` is applied directly. -/
def initState (saved : AllRoutes) : BakeState :=
  let m := mergeSaved saved
  { continent := none, bounds := none, route := m.2, segment := freshSolid,
    allRoutes := m.1 }

/-- The error message of the out-of-bounds branch of `bake`. -/
def posErrMsg (conti : String) (p : PosRecord) : String :=
  s!"Region '{p.region}' outside of continent '{conti}'"

/-- One iteration of the `for rec in recs` loop of `bake` (lines
135-189 of the source): the `match rec.kvp` command dispatch and the
position-record coordinate transform.  A raised `ValueError` is
`Except.error`. -/
def bakeStep (env : BakeEnv) (st : BakeState) (r : Rec) : Except String BakeState :=
  match r with
  | .cmd c v _src =>
      if c = "continent" then
        match casefoldResolve env.knownAreas v with
        | none => .error s!"Unknown continent: {v}"
        | some kb =>
            .ok { st with continent := some kb.1, bounds := some kb.2,
                          segment := freshSolid, route := none }
      else if c = "route" then
        let db :=
          match st.route with
          | some r0 => dbAppend st.allRoutes st.continent (some r0) st.segment
          | none => st.allRoutes
        .ok { st with allRoutes := db, route := some v, segment := freshSolid }
      else if c = "color" then
        .ok { st with segment := { st.segment with color := lookupStr env.allColors v } }
      else if c = "solid" then
        if st.segment.mode = DrawMode.DASHED then
          .ok { st with allRoutes := dbAppend st.allRoutes st.continent st.route st.segment,
                        segment := { mode := DrawMode.SOLID, color := st.segment.color,
                                     canvas_points := [] } }
        else .ok st
      else if c = "dashed" then
        if st.segment.mode = DrawMode.SOLID then
          .ok { st with allRoutes := dbAppend st.allRoutes st.continent st.route st.segment,
                        segment := { mode := DrawMode.DASHED, color := st.segment.color,
                                     canvas_points := [] } }
        else .ok st
      else if c = "endroute" then
        .ok { st with allRoutes := dbAppend st.allRoutes st.continent st.route st.segment,
                      route := none, segment := freshSolid }
      else if c = "break" then
        .ok { st with allRoutes := dbAppend st.allRoutes st.continent st.route st.segment,
                      segment := freshSolid }
      else
        .ok st
  | .pos p =>
      match st.continent with
      | none => .ok st
      | some contiName =>
          match st.route with
          | none => .ok st
          | some _ =>
              let coord : Int × Int :=
                (Int.fdiv p.reg_corner.1 256, Int.fdiv p.reg_corner.2.1 256)
              match st.bounds with
              | none => .error (posErrMsg contiName p)
              | some b =>
                  if b.memTile coord then
                    let canv_x := (coord.1 - b.origin_x) * 256 + p.local_pos.1
                    let canv_y := b.height * 256 - (coord.2 - b.origin_y) * 256 - p.local_pos.2.1
                    .ok { st with segment := st.segment.add (canv_x, canv_y) }
                  else .error (posErrMsg contiName p)

/-- The implicit end-of-stream close of `bake` (lines 191-194): `if
route: all_routes[continent][route].append(segment)`.  Note the Python
truthiness test: both `None` and the empty string skip the append. -/
def closeFinal (st : BakeState) : AllRoutes :=
  match st.route with
  | some r => if r = "" then st.allRoutes else
      dbAppend st.allRoutes st.continent (some r) st.segment
  | none => st.allRoutes

/-- The interpretation part of `bake` (everything before the cleanup
pass): fold the step over the record stream and apply the implicit
end-of-stream close. -/
def interpretRoutes (env : BakeEnv) (saved : AllRoutes) (recs : List Rec) :
    Except String AllRoutes :=
  (List.foldlM (bakeStep env) (initState saved) recs).map closeFinal

/-- The inner point-dedup loop of the cleanup pass (`seen`/`uniqs` in
lines 203-209): keep a point only when it has not been seen earlier in
the same segment. -/
def dedupAux (seen : List Point) : List Point → List Point
  | [] => []
  | p :: ps => if p ∈ seen then dedupAux seen ps else p :: dedupAux (p :: seen) ps

/-- The point-dedup of the cleanup pass, starting from an empty `seen`
set. -/
def dedupPoints (ps : List Point) : List Point := dedupAux [] ps

/-- The per-segment cleanup: dedup the points, drop the segment when
fewer than 2 points remain, else keep it with the deduped points. -/
def cleanSeg (s : Segment) : Option Segment :=
  let u := dedupPoints s.canvas_points
  if u.length < 2 then none else some { s with canvas_points := u }

/-- Cleanup of one route's segment list (`new_segs` in the source):
each segment is deduped and appended when it survives. -/
def cleanSegs : List Segment → List Segment
  | [] => []
  | s :: rest =>
      match cleanSeg s with
      | none => cleanSegs rest
      | some s2 => s2 :: cleanSegs rest

/-- Cleanup of one continent's routes: a route is kept only when some
segment survives (`if new_segs: clean_routes[conti][route] = new_segs`).
The source iterates a dict, whose keys are distinct, so the conditional
dict assignment is exactly this order-preserving filter. -/
def cleanRoutesOf : Routes → Routes
  | [] => []
  | (r, segs) :: rest =>
      let ns := cleanSegs segs
      if ns.isEmpty then cleanRoutesOf rest else (r, ns) :: cleanRoutesOf rest

/-- The whole cleanup pass of `bake` (lines 196-215): a continent is
kept only when some route survives. -/
def cleanDB : AllRoutes → AllRoutes
  | [] => []
  | (c, rs) :: rest =>
      let nr := cleanRoutesOf rs
      if nr.isEmpty then cleanDB rest else (c, nr) :: cleanDB rest

/-- `bake` as a function from the record stream and the saved routes to
the cleaned database (or the raised error).  The save-to-file step of
the source (lines 217-219) runs strictly after this value is fully
computed, so an error means nothing is written. -/
def bake (env : BakeEnv) (saved : AllRoutes) (recs : List Rec) :
    Except String AllRoutes :=
  (interpretRoutes env saved recs).map cleanDB

/-! ### The vector parser (`RE_VECTOR` and `roundf` of `PosRecord.__init__`) -/

/-- Digits-and-dots character class `[\d.]` of `RE_VECTOR`. -/
def isDigitOrDot (c : Char) : Bool := c.isDigit || c == '.'

/-- One numeric field `-?[\d.]+` of `RE_VECTOR`: an optional minus sign
followed by a non-empty greedy run of digits and dots.  Returns the
matched characters (sign included) and the rest of the input. -/
def matchField (cs : List Char) : Option (List Char × List Char) :=
  match cs with
  | '-' :: rest =>
      let ds := rest.takeWhile isDigitOrDot
      if ds.isEmpty then none else some ('-' :: ds, rest.drop ds.length)
  | _ =>
      let ds := cs.takeWhile isDigitOrDot
      if ds.isEmpty then none else some (ds, cs.drop ds.length)

/-- `RE_VECTOR.match`: the anchored prefix match of
`\s*<\s*(-?[\d.]+),\s*(-?[\d.]+),\s*(-?[\d.]+)\s*>\s*`.  Each numeric
class run is maximal, so the match is deterministic; `re.match` allows
arbitrary trailing text after the pattern. -/
def matchVector (cs : List Char) : Option (List Char × List Char × List Char) := do
  let cs := cs.dropWhile Char.isWhitespace
  match cs with
  | '<' :: rest =>
      let rest := rest.dropWhile Char.isWhitespace
      let (f1, rest) ← matchField rest
      match rest with
      | ',' :: rest =>
          let rest := rest.dropWhile Char.isWhitespace
          let (f2, rest) ← matchField rest
          match rest with
          | ',' :: rest =>
              let rest := rest.dropWhile Char.isWhitespace
              let (f3, rest) ← matchField rest
              match rest.dropWhile Char.isWhitespace with
              | '>' :: _ => some (f1, f2, f3)
              | _ => none
          | _ => none
      | _ => none
  | _ => none

/-- Value of a digit run as a natural number. -/
def digitsVal (ds : List Char) : Nat :=
  ds.foldl (fun n c => 10 * n + (c.toNat - '0'.toNat)) 0

/-- The exact value of a decimal field text: `num / 10 ^ scale`.  The
texts matched by `RE_VECTOR` are finite decimals, so this represents
them exactly. -/
structure DecNum where
  num : Int
  scale : Nat
deriving DecidableEq, Repr

/-- Python `float(num)` on a field matched by `-?[\d.]+`, modelled as
the exact value of the decimal text.  `float` raises `ValueError` (here
`none`) when the text has more than one dot or no digit at all (`"."`,
`"-."`); otherwise the text is `[-]digits[.digits]` and denotes an
exact decimal. -/
def parseDecimal (cs : List Char) : Option DecNum := do
  let (neg, ds) :=
    match cs with
    | '-' :: rest => (true, rest)
    | _ => (false, cs)
  let intPart := ds.takeWhile Char.isDigit
  let rest := ds.drop intPart.length
  let fracPart ←
    match rest with
    | [] => some ([] : List Char)
    | '.' :: fr => if fr.all Char.isDigit then some fr else none
    | _ => none
  if intPart.isEmpty && fracPart.isEmpty then none
  else
    let v : Int := digitsVal intPart * 10 ^ fracPart.length + digitsVal fracPart
    some { num := if neg then -v else v, scale := fracPart.length }

/-- Python's builtin `round` on the parsed value (the `roundf` helper of
`PosRecord.__init__`): round `num / 10 ^ scale` to the nearest integer,
ties to the even integer.  Python rounds the binary64 value of the
text; on the short decimal field texts at issue, whose ties (`k + 0.5`)
are exactly representable in binary64, that agrees with exact-value
rounding. -/
def pyRound (d : DecNum) : Int :=
  let p : Int := 10 ^ d.scale
  let f := d.num.fdiv p
  let r := d.num - f * p
  if 2 * r < p then f
  else if p < 2 * r then f + 1
  else if f % 2 = 0 then f else f + 1

/-- The whole vector parse of `PosRecord.__init__`: match `RE_VECTOR`,
then `round(float(...))` each captured field.  `none` models the raised
`ValueError` (either the pattern mismatch or a `float()` failure). -/
def parseVector (s : String) : Option (Int × Int × Int) := do
  let (f1, f2, f3) ← matchVector s.toList
  let d1 ← parseDecimal f1
  let d2 ← parseDecimal f2
  let d3 ← parseDecimal f3
  some (pyRound d1, pyRound d2, pyRound d3)

/-! ### The line classifier and record-stream builder (`parse_stream`) -/

/-- Bool test for a list being an infix of another (`needle in
haystack` on Python strings). -/
def listHasInfix (needle : List Char) : List Char → Bool
  | [] => needle.isEmpty
  | c :: cs => needle.isPrefixOf (c :: cs) || listHasInfix needle cs

/-- `s1 in s2` on Python strings. -/
def strHasInfix (needle hay : String) : Bool :=
  listHasInfix needle.toList hay.toList

/-- Python `str.strip()`: remove leading and trailing whitespace. -/
def pyStrip (s : String) : String :=
  String.mk
    (((s.toList.dropWhile Char.isWhitespace).reverse.dropWhile Char.isWhitespace).reverse)

/-- Python `str.startswith`. -/
def pyStartsWith (s pre : String) : Bool :=
  pre.toList.isPrefixOf s.toList

/-- The splitting loop of Python `str.split(sep)` for a non-empty
separator, scanning left to right and taking the earliest match.  The
fuel argument starts at the length of the text; it bounds that length
throughout (each separator hit consumes at least one character), so the
out-of-fuel branch is never taken. -/
def splitOnFuel (sep : List Char) : Nat → List Char → List (List Char)
  | _, [] => [[]]
  | 0, cs => [cs]
  | fuel + 1, c :: cs =>
      if sep.isPrefixOf (c :: cs) then
        [] :: splitOnFuel sep fuel ((c :: cs).drop sep.length)
      else
        match splitOnFuel sep fuel cs with
        | [] => [[c]]
        | f :: rest => (c :: f) :: rest

/-- Python `str.split(sep)`; the source only splits on the non-empty
separators `";;"`, `"**"` and `"*"`. -/
def pySplit (s sep : String) : List String :=
  (splitOnFuel sep.toList s.toList.length s.toList).map String.mk

/-- The tail of `RE_POSREC_LINE` after the literal `PosRecorder`:
`\s*(?P<ver>[^:]*):\s+(?P<entry>.*)`.  The combined `\s*[^:]*` run is
exactly the colon-free run, so the matched colon is the first colon;
`\s+` then demands at least one whitespace character, and the greedy
`.*` makes `entry` the rest after all that whitespace. -/
def matchPosrecAfter (cs : List Char) : Option (List Char) :=
  let rest := cs.dropWhile (fun c => c ≠ ':')
  match rest with
  | ':' :: afterColon =>
      match afterColon with
      | w :: _ =>
          if w.isWhitespace then some (afterColon.dropWhile Char.isWhitespace) else none
      | [] => none
  | _ => none

/-- `RE_POSREC_LINE.match`: the lazy `(?P<prefix>.*?)` tries every
start position in order, the literal `PosRecorder` must follow, and the
rest of the pattern must match from there; on failure the engine
backtracks to the next start position. -/
def findPosrecEntry : List Char → Option (List Char)
  | [] => none
  | c :: cs =>
      if ("PosRecorder".toList).isPrefixOf (c :: cs) then
        match matchPosrecAfter ((c :: cs).drop 11) with
        | some e => some e
        | none => findPosrecEntry cs
      else findPosrecEntry cs

/-- `RE_POSREC_KV.match`: `(?P<key>[^:\s]+)\s*:\s*(?P<value>.*)`.  The
greedy key run is maximal and may not contain a colon, so the colon
matched is forced; the match is deterministic. -/
def matchKV (cs : List Char) : Option (List Char × List Char) :=
  let key := cs.takeWhile (fun c => c ≠ ':' && !c.isWhitespace)
  if key.isEmpty then none
  else
    let rest := (cs.drop key.length).dropWhile Char.isWhitespace
    match rest with
    | ':' :: r => some (key, r.dropWhile Char.isWhitespace)
    | _ => none

/-- The outcome of one iteration of the `for lnum, ln in enumerate(fin)`
loop of `parse_stream`: the line is skipped, appends one record,
records a bad-arity structural error (`found_err = True`), or raises a
`ValueError` from `PosRecord.__init__`. -/
inductive LineOut where
  | skip
  | record (r : Rec)
  | arityErr
  | vecErr (msg : String)
deriving DecidableEq, Repr

/-- `PosRecord(...)` construction from the split fields: parse the two
vector strings, reporting the `ValueError` messages of
`PosRecord.__init__`. -/
def mkPosRecord (regn : String) (parn : Option String) (regc locp : String)
    (src : String × Int) : LineOut :=
  match parseVector regc with
  | none => .vecErr s!"Can't parse region_corner = '{regc}'"
  | some rc =>
      match parseVector locp with
      | none => .vecErr s!"Can't parse local_pos = '{locp}'"
      | some lp =>
          .record (.pos { region := regn, parcel := parn, reg_corner := rc,
                          local_pos := lp, source := src })

/-- One line of `parse_stream` (lines 74-110 of the source): strip,
match the recorder wrapper, skip comments, classify by the ordered
delimiter tests, and either emit a `Command`, build a `PosRecord`, or
record the bad-arity error. -/
def parseLine (name : String) (lnum : Int) (ln0 : String) : LineOut :=
  let ln := pyStrip ln0
  match findPosrecEntry ln.toList with
  | none => .skip
  | some entryCs =>
      let cmdline : String := String.mk entryCs
      if pyStartsWith cmdline "#" then .skip
      else
        let src := (name, lnum)
        let itemsOpt : Option (List String) :=
          if pyStartsWith cmdline "3;;" then some ((pySplit cmdline ";;").drop 1)
          else if strHasInfix "**" cmdline then some (pySplit cmdline "**")
          else if strHasInfix "*<" cmdline then some (pySplit cmdline "*")
          else none
        match itemsOpt with
        | none =>
            match matchKV cmdline.toList with
            | some kv => .record (.cmd (String.mk kv.1) (String.mk kv.2) src)
            | none => .record (.cmd (pyCasefold cmdline) "" src)
        | some items =>
            match items with
            | [regn, regc, locp] => mkPosRecord regn none regc locp src
            | [regn, parn, regc, locp] => mkPosRecord regn (some parn) regc locp src
            | _ => .arityErr

/-- The loop of `parse_stream`, with the 1-based line counter made
explicit: returns the appended records and the `found_err` flag, or the
raised `ValueError` of a bad vector (which the source does not catch,
so it aborts the scan). -/
def parseStreamAux (name : String) (lnum : Int) :
    List String → Except String (List Rec × Bool)
  | [] => .ok ([], false)
  | l :: ls =>
      match parseLine name lnum l with
      | .skip => parseStreamAux name (lnum + 1) ls
      | .record r => (parseStreamAux name (lnum + 1) ls).map (fun x => (r :: x.1, x.2))
      | .arityErr => (parseStreamAux name (lnum + 1) ls).map (fun x => (x.1, true))
      | .vecErr m => .error m

/-- `parse_stream` over one input stream given as its list of lines. -/
def parse_stream (name : String) (lines : List String) :
    Except String (List Rec × Bool) :=
  parseStreamAux name 1 lines

/-- The loop of `main` over the input files: records of all streams are
appended to one list in order, and the per-stream error flags are
OR-ed (`err |= parse_stream(fin, all_recs)`). -/
def parseAll : List (String × List String) → Except String (List Rec × Bool)
  | [] => .ok ([], false)
  | (n, ls) :: rest => do
      let x ← parse_stream n ls
      let y ← parseAll rest
      pure (x.1 ++ y.1, x.2 || y.2)

/-- `main` after the input files have been read: if any structural
error was recorded the run exits (`sys.exit(1)`) before `bake` is
called; otherwise `bake` runs on the concatenated records with an empty
saved-routes database. -/
def runMain (env : BakeEnv) (streams : List (String × List String)) :
    Except String AllRoutes := do
  let x ← parseAll streams
  if x.2 then .error "Errors found. Please fix them first!"
  else bake env [] x.1

/-! ### Concrete fixtures used by the witnesses and counterexamples -/

/-- The bounding box of the spec's coordinate-transform example:
origin `(10, 10)`, width 4, height 4. -/
def boundsC : AreaBounds := { origin_x := 10, origin_y := 10, width := 4, height := 4 }

/-- A known-areas table holding only `Conti1` with `boundsC`. -/
def envC : BakeEnv := { knownAreas := [("Conti1", boundsC)], allColors := [] }

/-- A position record in tile `(11, 11)` of `boundsC` with the given
local position. -/
def posC (lx ly : Int) : PosRecord :=
  { region := "Region", parcel := none, reg_corner := (2816, 2816, 0),
    local_pos := (lx, ly, 0), source := ("f", 1) }

/-! ### C1: the coordinate transform of position records -/

/-- The claimed tile of a position record: component-wise floor
division of the region corner by 256 (written from the claim's words,
for comparison with `bakeStep`). -/
def claimTile (p : PosRecord) : Int × Int :=
  (Int.fdiv p.reg_corner.1 256, Int.fdiv p.reg_corner.2.1 256)

/-- The claimed canvas point of a position record (written from the
claim's words, for comparison with `bakeStep`):
`x = (tile.x - origin_x) * 256 + local_pos.x` and
`y = height * 256 - (tile.y - origin_y) * 256 - local_pos.y`. -/
def claimCanvasPoint (b : AreaBounds) (p : PosRecord) : Point :=
  (((claimTile p).1 - b.origin_x) * 256 + p.local_pos.1,
   b.height * 256 - ((claimTile p).2 - b.origin_y) * 256 - p.local_pos.2.1)

/-- C1: while a continent and a route are set, a position record whose
tile `(region_corner.x fdiv 256, region_corner.y fdiv 256)` lies in the
continent's bounding box appends to the open segment the canvas point
`((tile.x - origin_x) * 256 + local_pos.x,
height * 256 - (tile.y - origin_y) * 256 - local_pos.y)`. -/
theorem pos_record_transform (env : BakeEnv) (st : BakeState) (p : PosRecord)
    (c : String) (b : AreaBounds) (r : String)
    (hc : st.continent = some c) (hb : st.bounds = some b) (hr : st.route = some r)
    (hin : b.memTile (claimTile p) = true) :
    bakeStep env st (.pos p) =
      .ok { st with segment := st.segment.add (claimCanvasPoint b p) } := by
  simp [bakeStep, hc, hb, hr, claimTile, claimCanvasPoint] at hin ⊢
  simp [hin]

/-- C1 witness: with bounding box origin `(10, 10)` and height 4, the
record with `region_corner = (2816, 2816, 0)` (tile `(11, 11)`) and
`local_pos = (100, 50, 0)` appends the canvas point `(356, 718)`. -/
theorem pos_record_transform_witness :
    bakeStep envC
      { continent := some "Conti1", bounds := some boundsC, route := some "R1",
        segment := freshSolid, allRoutes := [] } (.pos (posC 100 50)) =
    .ok { continent := some "Conti1", bounds := some boundsC, route := some "R1",
          segment := { mode := DrawMode.SOLID, color := none, canvas_points := [(356, 718)] },
          allRoutes := [] } := by
  have h := pos_record_transform envC
    { continent := some "Conti1", bounds := some boundsC, route := some "R1",
      segment := freshSolid, allRoutes := [] } (posC 100 50)
    "Conti1" boundsC "R1" rfl rfl rfl (by decide)
  exact h

/-! ### C9: color never carries over a `break` (nor `route`, `endroute`,
`continent`), only over `solid`/`dashed` mode switches -/

/-- C9: `break`, `endroute`, `route` and a resolving `continent` all
open a fresh `SOLID` segment with no color, whatever the color of the
segment they close, while the `solid`/`dashed` mode switches open the
new segment with the closed segment's color. -/
theorem break_resets_color :
    (∀ (env : BakeEnv) (st : BakeState) (v : String) (s : String × Int),
      bakeStep env st (.cmd "break" v s) =
        .ok { st with allRoutes := dbAppend st.allRoutes st.continent st.route st.segment,
                      segment := freshSolid })
    ∧ (∀ (env : BakeEnv) (st : BakeState) (v : String) (s : String × Int),
      bakeStep env st (.cmd "endroute" v s) =
        .ok { st with allRoutes := dbAppend st.allRoutes st.continent st.route st.segment,
                      route := none, segment := freshSolid })
    ∧ (∀ (env : BakeEnv) (st : BakeState) (v : String) (s : String × Int) (r0 : String),
      st.route = some r0 →
      bakeStep env st (.cmd "route" v s) =
        .ok { st with allRoutes := dbAppend st.allRoutes st.continent (some r0) st.segment,
                      route := some v, segment := freshSolid })
    ∧ (∀ (env : BakeEnv) (st : BakeState) (v : String) (s : String × Int)
        (kb : String × AreaBounds),
      casefoldResolve env.knownAreas v = some kb →
      bakeStep env st (.cmd "continent" v s) =
        .ok { st with continent := some kb.1, bounds := some kb.2,
                      segment := freshSolid, route := none })
    ∧ (∀ (env : BakeEnv) (st : BakeState) (v : String) (s : String × Int),
      st.segment.mode = DrawMode.SOLID →
      bakeStep env st (.cmd "dashed" v s) =
        .ok { st with allRoutes := dbAppend st.allRoutes st.continent st.route st.segment,
                      segment := { mode := DrawMode.DASHED, color := st.segment.color,
                                   canvas_points := [] } })
    ∧ (∀ (env : BakeEnv) (st : BakeState) (v : String) (s : String × Int),
      st.segment.mode = DrawMode.DASHED →
      bakeStep env st (.cmd "solid" v s) =
        .ok { st with allRoutes := dbAppend st.allRoutes st.continent st.route st.segment,
                      segment := { mode := DrawMode.SOLID, color := st.segment.color,
                                   canvas_points := [] } }) := by
  refine ⟨fun env st v s => by simp [bakeStep],
          fun env st v s => by simp [bakeStep],
          fun env st v s r0 h => by simp [bakeStep, h],
          fun env st v s kb h => by simp [bakeStep, h],
          fun env st v s h => by simp [bakeStep, h],
          fun env st v s h => by simp [bakeStep, h]⟩

/-- A segment carrying a color, used to witness the color-reset
behavior. -/
def coloredState : BakeState :=
  { continent := some "Conti1", bounds := some boundsC, route := some "R1",
    segment := { mode := DrawMode.DASHED, color := some "RED",
                 canvas_points := [(1, 2), (3, 4)] },
    allRoutes := [] }

/-- C9 witness: on a state whose open `DASHED` segment has color
`RED`, `break` opens an uncolored `SOLID` segment while `solid` opens a
`SOLID` segment still colored `RED`. -/
theorem break_resets_color_witness :
    bakeStep envC coloredState (.cmd "break" "" ("f", 1)) =
      .ok { coloredState with
            allRoutes := [(some "Conti1", [(some "R1", [coloredState.segment])])],
            segment := { mode := DrawMode.SOLID, color := none, canvas_points := [] } }
    ∧ bakeStep envC coloredState (.cmd "solid" "" ("f", 1)) =
      .ok { coloredState with
            allRoutes := [(some "Conti1", [(some "R1", [coloredState.segment])])],
            segment := { mode := DrawMode.SOLID, color := some "RED",
                         canvas_points := [] } } :=
  ⟨(break_resets_color.1 envC coloredState "" ("f", 1)).trans rfl,
   (break_resets_color.2.2.2.2.2 envC coloredState "" ("f", 1) rfl).trans rfl⟩

/-! ### C10: the `color` command with an unknown name erases the color -/

/-- C10: the `color` command always assigns the color table's lookup
result to the open segment: with an unknown name that result is absent,
erasing any previously set color; with a known name it is the table's
identifier. -/
theorem color_command_assigns_lookup :
    (∀ (env : BakeEnv) (st : BakeState) (n : String) (s : String × Int),
      lookupStr env.allColors n = none →
      bakeStep env st (.cmd "color" n s) =
        .ok { st with segment := { st.segment with color := none } })
    ∧ (∀ (env : BakeEnv) (st : BakeState) (n : String) (s : String × Int) (ident : String),
      lookupStr env.allColors n = some ident →
      bakeStep env st (.cmd "color" n s) =
        .ok { st with segment := { st.segment with color := some ident } }) := by
  constructor
  · intro env st n s h
    simp [bakeStep, h]
  · intro env st n s ident h
    simp [bakeStep, h]

/-- A color table holding only `red`. -/
def envRed : BakeEnv := { knownAreas := [], allColors := [("red", "RED")] }

/-- A state whose open segment already carries the color `RED`. -/
def stRed : BakeState :=
  { continent := none, bounds := none, route := none,
    segment := { mode := DrawMode.SOLID, color := some "RED", canvas_points := [] },
    allRoutes := [] }

/-- C10 witness: `color nope` erases the previously set color `RED`,
and `color red` sets the table's identifier. -/
theorem color_command_assigns_lookup_witness :
    bakeStep envRed stRed (.cmd "color" "nope" ("f", 1)) =
      .ok { stRed with segment := { stRed.segment with color := none } }
    ∧ bakeStep envRed stRed (.cmd "color" "red" ("f", 1)) =
      .ok { stRed with segment := { stRed.segment with color := some "RED" } } :=
  ⟨color_command_assigns_lookup.1 envRed stRed "nope" ("f", 1) (by decide),
   color_command_assigns_lookup.2 envRed stRed "red" ("f", 1) "RED" (by decide)⟩

/-! ### C2: mode toggling on
`continent Conti1; route R1; pos A; dashed; pos B; solid; pos C; endroute` -/

/-- The record stream of the mode-toggling scenario: one position
record between each mode command. -/
def recsModeToggle : List Rec :=
  [.cmd "continent" "Conti1" ("f", 1), .cmd "route" "R1" ("f", 2),
   .pos (posC 100 50), .cmd "dashed" "" ("f", 4), .pos (posC 10 20),
   .cmd "solid" "" ("f", 6), .pos (posC 30 40), .cmd "endroute" "" ("f", 8)]

/-- The three single-point segments the interpreter builds for the
mode-toggling scenario. -/
def segsModeToggle : List Segment :=
  [{ mode := DrawMode.SOLID, color := none, canvas_points := [(356, 718)] },
   { mode := DrawMode.DASHED, color := none, canvas_points := [(266, 748)] },
   { mode := DrawMode.SOLID, color := none, canvas_points := [(286, 728)] }]

/-- C2 counterexample: on the claimed command sequence the output
database of `bake` is empty — the three segments each hold a single
point, so the cleanup pass drops them all and route `R1` does not
appear in the output database with 3 segments (nor at all). -/
theorem mode_toggle_output_empty :
    bake envC [] recsModeToggle = .ok []
    ∧ ([] : AllRoutes) ≠ [(some "Conti1", [(some "R1", segsModeToggle)])] :=
  ⟨rfl, by decide⟩

/-- C2 amended: the interpreter's database before the cleanup pass
holds exactly 3 segments for route `R1`, in order
`[SOLID{A}, DASHED{B}, SOLID{C}]` (the cleanup pass then drops these
single-point segments, leaving the final output database empty); a
mode switch closes the current segment and opens a new one carrying
over the same color, and `solid` (resp. `dashed`) with the mode already
`SOLID` (resp. `DASHED`) is a no-op. -/
theorem mode_toggle_segments :
    interpretRoutes envC [] recsModeToggle =
      .ok [(some "Conti1", [(some "R1", segsModeToggle)])]
    ∧ (∀ (env : BakeEnv) (st : BakeState) (v : String) (s : String × Int),
      st.segment.mode = DrawMode.SOLID → bakeStep env st (.cmd "solid" v s) = .ok st)
    ∧ (∀ (env : BakeEnv) (st : BakeState) (v : String) (s : String × Int),
      st.segment.mode = DrawMode.DASHED → bakeStep env st (.cmd "dashed" v s) = .ok st)
    ∧ (∀ (env : BakeEnv) (st : BakeState) (v : String) (s : String × Int),
      st.segment.mode = DrawMode.SOLID →
      bakeStep env st (.cmd "dashed" v s) =
        .ok { st with allRoutes := dbAppend st.allRoutes st.continent st.route st.segment,
                      segment := { mode := DrawMode.DASHED, color := st.segment.color,
                                   canvas_points := [] } })
    ∧ (∀ (env : BakeEnv) (st : BakeState) (v : String) (s : String × Int),
      st.segment.mode = DrawMode.DASHED →
      bakeStep env st (.cmd "solid" v s) =
        .ok { st with allRoutes := dbAppend st.allRoutes st.continent st.route st.segment,
                      segment := { mode := DrawMode.SOLID, color := st.segment.color,
                                   canvas_points := [] } }) := by
  refine ⟨rfl,
          fun env st v s h => by simp [bakeStep, h],
          fun env st v s h => by simp [bakeStep, h],
          fun env st v s h => by simp [bakeStep, h],
          fun env st v s h => by simp [bakeStep, h]⟩

/-- A state with an open uncolored `SOLID` segment, for the no-op
witnesses. -/
def stSolidOpen : BakeState :=
  { continent := some "Conti1", bounds := some boundsC, route := some "R1",
    segment := { mode := DrawMode.SOLID, color := some "BLUE", canvas_points := [(9, 9)] },
    allRoutes := [] }

/-- C2 witness: `solid` on a `SOLID` segment is a no-op, and `dashed`
on that segment closes it and carries the color `BLUE` over. -/
theorem mode_toggle_segments_witness :
    bakeStep envC stSolidOpen (.cmd "solid" "" ("f", 1)) = .ok stSolidOpen
    ∧ bakeStep envC stSolidOpen (.cmd "dashed" "" ("f", 1)) =
      .ok { stSolidOpen with
            allRoutes := [(some "Conti1", [(some "R1", [stSolidOpen.segment])])],
            segment := { mode := DrawMode.DASHED, color := some "BLUE",
                         canvas_points := [] } } :=
  ⟨mode_toggle_segments.2.1 envC stSolidOpen "" ("f", 1) rfl,
   (mode_toggle_segments.2.2.2.1 envC stSolidOpen "" ("f", 1) rfl).trans rfl⟩

/-! ### C4 and C5: the cleanup pass -/

theorem mem_dedupAux_not_seen :
    ∀ (l seen : List Point) (p : Point), p ∈ dedupAux seen l → p ∉ seen := by
  intro l
  induction l with
  | nil => intro seen p h; simp [dedupAux] at h
  | cons q ps ih =>
      intro seen p h
      by_cases hq : q ∈ seen
      · rw [dedupAux, if_pos hq] at h
        exact ih seen p h
      · rw [dedupAux, if_neg hq] at h
        rcases List.mem_cons.mp h with rfl | h2
        · exact hq
        · intro hs
          exact ih (q :: seen) p h2 (List.mem_cons_of_mem q hs)

theorem dedupAux_nodup : ∀ (l seen : List Point), (dedupAux seen l).Nodup := by
  intro l
  induction l with
  | nil => intro seen; simp [dedupAux]
  | cons q ps ih =>
      intro seen
      by_cases hq : q ∈ seen
      · rw [dedupAux, if_pos hq]; exact ih seen
      · rw [dedupAux, if_neg hq]
        refine List.nodup_cons.mpr ⟨fun hmem => ?_, ih (q :: seen)⟩
        exact mem_dedupAux_not_seen ps (q :: seen) q hmem (List.mem_cons_self q seen)

theorem dedupAux_eq_self :
    ∀ (l seen : List Point), l.Nodup → (∀ p ∈ l, p ∉ seen) → dedupAux seen l = l := by
  intro l
  induction l with
  | nil => intro seen _ _; rfl
  | cons q ps ih =>
      intro seen hnd hout
      have hq : q ∉ seen := hout q (List.mem_cons_self q ps)
      rw [dedupAux, if_neg hq]
      have hps : ∀ p ∈ ps, p ∉ q :: seen := by
        intro p hp
        have hpq : p ≠ q := by
          intro h; exact (List.nodup_cons.mp hnd).1 (h ▸ hp)
        simp only [List.mem_cons]
        push_neg
        exact ⟨hpq, hout p (List.mem_cons_of_mem q hp)⟩
      rw [ih (q :: seen) (List.nodup_cons.mp hnd).2 hps]

theorem dedupPoints_idem (l : List Point) :
    dedupPoints (dedupPoints l) = dedupPoints l := by
  unfold dedupPoints
  exact dedupAux_eq_self (dedupAux [] l) [] (dedupAux_nodup l []) (by simp)

theorem cleanSeg_idem (s s' : Segment) (h : cleanSeg s = some s') :
    cleanSeg s' = some s' := by
  unfold cleanSeg at h ⊢
  by_cases hlt : (dedupPoints s.canvas_points).length < 2
  · simp [hlt] at h
  · simp only [hlt, if_false, Option.some.injEq] at h
    subst h
    simp [dedupPoints_idem, hlt]

theorem cleanSegs_idem (l : List Segment) : cleanSegs (cleanSegs l) = cleanSegs l := by
  induction l with
  | nil => rfl
  | cons s rest ih =>
      cases h : cleanSeg s with
      | none => simp only [cleanSegs, h]; exact ih
      | some s' => simp only [cleanSegs, h, cleanSeg_idem s s' h, ih]

theorem cleanRoutesOf_idem (rs : Routes) :
    cleanRoutesOf (cleanRoutesOf rs) = cleanRoutesOf rs := by
  induction rs with
  | nil => rfl
  | cons e rest ih =>
      obtain ⟨r, segs⟩ := e
      by_cases he : (cleanSegs segs).isEmpty
      · simp only [cleanRoutesOf, he, if_pos]
        exact ih
      · simp only [cleanRoutesOf, he, if_neg, Bool.false_eq_true, if_false,
                   cleanSegs_idem, ih]

/-- C5: the cleanup pass is idempotent: cleaning an already-cleaned
route database changes nothing — same continents, routes, segment
order and point order. -/
theorem cleanup_idempotent (db : AllRoutes) : cleanDB (cleanDB db) = cleanDB db := by
  induction db with
  | nil => rfl
  | cons e rest ih =>
      obtain ⟨c, rs⟩ := e
      by_cases he : (cleanRoutesOf rs).isEmpty
      · simp only [cleanDB, he, if_pos]
        exact ih
      · simp only [cleanDB, he, if_neg, Bool.false_eq_true, if_false,
                   cleanRoutesOf_idem, ih]

/-- The claim's description of the point filter, written from the
claim's words for comparison with the implementation: keep the first
occurrence of each point and remove every later duplicate of it. -/
def distinctFirstSpec : List Point → List Point
  | [] => []
  | p :: ps => p :: distinctFirstSpec (ps.filter (fun q => decide (q ≠ p)))
termination_by l => l.length
decreasing_by
  simp only [List.length_cons]
  exact Nat.lt_succ_of_le (ps.length_filter_le _)

theorem dedupAux_eq_spec :
    ∀ (l seen : List Point),
      dedupAux seen l = distinctFirstSpec (l.filter (fun p => decide (p ∉ seen))) := by
  intro l
  induction l with
  | nil => intro seen; simp [dedupAux, distinctFirstSpec]
  | cons q ps ih =>
      intro seen
      by_cases hq : q ∈ seen
      · rw [dedupAux, if_pos hq, List.filter_cons_of_neg (by simp [hq])]
        exact ih seen
      · rw [dedupAux, if_neg hq, List.filter_cons_of_pos (by simp [hq]),
            distinctFirstSpec, ih (q :: seen), List.filter_filter]
        congr 1
        congr 1
        apply List.filter_congr
        intro a _
        by_cases h1 : a = q <;> by_cases h2 : a ∈ seen <;>
          simp [h1, h2, List.mem_cons]

/-- C4: for every segment, the cleaner keeps the first occurrence of
every point and removes the later duplicates (order preserved), then
drops the segment when fewer than 2 points remain; in particular
`[(1,1),(2,2),(1,1),(3,3)]` cleans to `[(1,1),(2,2),(3,3)]` and a
segment with points `[(5,5),(5,5)]` is removed entirely. -/
theorem clean_distinct_filter :
    (∀ ps : List Point, dedupPoints ps = distinctFirstSpec ps)
    ∧ (∀ (s : Segment) (rest : List Segment),
        (dedupPoints s.canvas_points).length < 2 →
        cleanSegs (s :: rest) = cleanSegs rest)
    ∧ (∀ (s : Segment) (rest : List Segment),
        ¬ (dedupPoints s.canvas_points).length < 2 →
        cleanSegs (s :: rest) =
          { s with canvas_points := dedupPoints s.canvas_points } :: cleanSegs rest)
    ∧ cleanSegs [{ mode := DrawMode.SOLID, color := none,
                   canvas_points := [(1, 1), (2, 2), (1, 1), (3, 3)] }] =
        [{ mode := DrawMode.SOLID, color := none,
           canvas_points := [(1, 1), (2, 2), (3, 3)] }]
    ∧ cleanSegs [{ mode := DrawMode.SOLID, color := none,
                   canvas_points := [(5, 5), (5, 5)] }] = [] := by
  refine ⟨fun ps => ?_, fun s rest h => ?_, fun s rest h => ?_, rfl, rfl⟩
  · have h := dedupAux_eq_spec ps []
    simpa [dedupPoints] using h
  · simp [cleanSegs, cleanSeg, h]
  · simp [cleanSegs, cleanSeg, h]

/-- C4 witness: the two drop rules applied to the claim's concrete
segments. -/
theorem clean_distinct_filter_witness :
    cleanSegs [{ mode := DrawMode.SOLID, color := none,
                 canvas_points := [(5, 5), (5, 5)] },
               { mode := DrawMode.DASHED, color := none,
                 canvas_points := [(1, 1), (2, 2), (1, 1), (3, 3)] }] =
      [{ mode := DrawMode.DASHED, color := none,
         canvas_points := [(1, 1), (2, 2), (3, 3)] }] := by
  rw [clean_distinct_filter.2.1 _ _ (by decide)]
  rw [clean_distinct_filter.2.2.1 _ _ (by decide)]
  rfl

/-! ### C3: the rounding of vector components -/

/-- C3 counterexample: the component text `"0.5"` parses to `0`, not to
`1` as half-away-from-zero rounding would give. -/
theorem rounding_half_away_refuted :
    parseVector "<0.5, 1.5, 0>" = some (0, 2, 0) ∧ (0 : Int) ≠ 1 :=
  ⟨by decide, by decide⟩

theorem pyRound_nearest_even (d : DecNum) :
    2 * |d.num - pyRound d * (10 : Int) ^ d.scale| ≤ 10 ^ d.scale ∧
    (2 * |d.num - pyRound d * (10 : Int) ^ d.scale| = 10 ^ d.scale →
      pyRound d % 2 = 0) := by
  have hp : (0 : Int) < 10 ^ d.scale := by positivity
  have hfm := Int.fdiv_add_fmod d.num ((10 : Int) ^ d.scale)
  have hr0 : 0 ≤ d.num.fmod ((10 : Int) ^ d.scale) := Int.fmod_nonneg' d.num hp
  have hr1 : d.num.fmod ((10 : Int) ^ d.scale) < 10 ^ d.scale :=
    Int.fmod_lt_of_pos d.num hp
  have hrm : d.num - d.num.fdiv ((10 : Int) ^ d.scale) * 10 ^ d.scale =
      d.num.fmod ((10 : Int) ^ d.scale) := by linear_combination -hfm
  simp only [pyRound]
  set p : Int := 10 ^ d.scale with hp_def
  set f : Int := d.num.fdiv p with hf_def
  set r : Int := d.num - f * p with hr_def
  have hrb0 : 0 ≤ r := by rw [hrm]; exact hr0
  have hrb1 : r < p := by rw [hrm]; exact hr1
  have hlow : d.num - (f + 1) * p = r - p := by rw [hr_def]; ring
  split_ifs with c1 c2 c3
  · refine ⟨?_, ?_⟩
    · rw [abs_of_nonneg hrb0]; omega
    · rw [abs_of_nonneg hrb0]; omega
  · refine ⟨?_, ?_⟩
    · rw [hlow, abs_of_nonpos (by omega)]; omega
    · rw [hlow, abs_of_nonpos (by omega)]; omega
  · refine ⟨?_, fun _ => c3⟩
    rw [abs_of_nonneg hrb0]; omega
  · refine ⟨?_, fun _ => by omega⟩
    rw [hlow, abs_of_nonpos (by omega)]; omega

/-- C3 amended: each component of a parsed vector is independently
rounded to the nearest integer with ties rounded half-to-even (Python's
`round`), not half-away-from-zero: the error of `pyRound` is at most
half of the scale unit, a tie yields an even integer, and the component
texts `"0.5"`, `"1.5"`, `"2.5"`, `"-0.5"`, `"-1.5"`, `"-2.5"` parse to
`0`, `2`, `2`, `0`, `-2`, `-2`. -/
theorem vector_rounding_half_even :
    (∀ d : DecNum, 2 * |d.num - pyRound d * (10 : Int) ^ d.scale| ≤ 10 ^ d.scale)
    ∧ (∀ d : DecNum, 2 * |d.num - pyRound d * (10 : Int) ^ d.scale| = 10 ^ d.scale →
        pyRound d % 2 = 0)
    ∧ parseVector "<0.5, 1.5, 2.5>" = some (0, 2, 2)
    ∧ parseVector "<-0.5, -1.5, -2.5>" = some (0, -2, -2) :=
  ⟨fun d => (pyRound_nearest_even d).1, fun d => (pyRound_nearest_even d).2,
   by decide, by decide⟩

/-- C3 witness: the tie `5 / 10` (the text `"0.5"`) is rounded to the
even integer `0`, at distance exactly one half. -/
theorem vector_rounding_half_even_witness :
    2 * |(5 : Int) - pyRound { num := 5, scale := 1 } * (10 : Int) ^ 1| = 10 ^ 1
    ∧ pyRound { num := 5, scale := 1 } % 2 = 0 :=
  ⟨by decide, vector_rounding_half_even.2.1 { num := 5, scale := 1 } (by decide)⟩

/-! ### C6: out-of-bounds position records abort the run -/

/-- C6: a position record reached with a continent and a route set
whose tile falls outside the continent's bounding box makes `bake`
raise (`Except.error`): the whole run aborts, the cleanup pass and the
save step (which in the source runs strictly after the loop) are never
reached, and no output database is produced. -/
theorem out_of_bounds_aborts (env : BakeEnv) (saved : AllRoutes)
    (pre suffix : List Rec) (p : PosRecord) (st : BakeState)
    (c : String) (b : AreaBounds)
    (hpre : List.foldlM (bakeStep env) (initState saved) pre = .ok st)
    (hc : st.continent = some c) (hr : st.route.isSome = true)
    (hb : st.bounds = some b)
    (hout : b.memTile (claimTile p) = false) :
    bake env saved (pre ++ .pos p :: suffix) = .error (posErrMsg c p) := by
  obtain ⟨r, hr'⟩ := Option.isSome_iff_exists.mp hr
  have hstep : bakeStep env st (.pos p) = .error (posErrMsg c p) := by
    simp only [bakeStep, hc, hr', hb]
    simp [claimTile] at hout
    simp [hout]
  simp only [bake, interpretRoutes]
  rw [List.foldlM_append, hpre]
  show ((List.foldlM (bakeStep env) st (Rec.pos p :: suffix)).map closeFinal).map cleanDB = _
  rw [List.foldlM_cons, hstep]
  rfl

/-- The two commands that set `Conti1` and open route `R1`. -/
def preOpen : List Rec :=
  [.cmd "continent" "Conti1" ("f", 1), .cmd "route" "R1" ("f", 2)]

/-- The interpreter state after `preOpen`. -/
def stOpen : BakeState :=
  { continent := some "Conti1", bounds := some boundsC, route := some "R1",
    segment := freshSolid, allRoutes := [] }

/-- A position record whose tile `(0, 0)` is outside `boundsC`. -/
def posOut : PosRecord :=
  { region := "Far", parcel := none, reg_corner := (100, 100, 0),
    local_pos := (1, 2, 0), source := ("f", 3) }

/-- C6 witness: the record stream `continent Conti1; route R1; posOut`
aborts with the out-of-bounds error and yields no database. -/
theorem out_of_bounds_aborts_witness :
    bake envC [] (preOpen ++ .pos posOut :: []) = .error (posErrMsg "Conti1" posOut) :=
  out_of_bounds_aborts envC [] preOpen [] posOut stOpen "Conti1" boundsC
    rfl rfl rfl rfl (by decide)

/-! ### C7: the implicit end-of-stream close of an open route -/

/-- The record stream that opens the empty-named route `""` and appends
two distinct in-bounds points to its segment. -/
def recsEmptyName : List Rec :=
  [.cmd "continent" "Conti1" ("f", 1), .cmd "route" "" ("f", 2),
   .pos (posC 100 50), .pos (posC 10 20)]

/-- C7 counterexample: a route whose name is the empty string that is
still open at end of stream is NOT closed into the database — the
Python truthiness test `if route:` skips the final append, so both the
interpreter's database and the final output are empty, although the
segment held two distinct points that would have survived cleaning. -/
theorem implicit_end_empty_name_lost :
    interpretRoutes envC [] recsEmptyName = .ok []
    ∧ bake envC [] recsEmptyName = .ok [] :=
  ⟨rfl, rfl⟩

/-- C7 amended: when the stream ends with a route still open, the
implicit end is never an error; if the open route's name is non-empty
its current segment is closed into the database under that name as a
final step, but a route named by the empty string (and a run with no
open route) closes nothing. -/
theorem implicit_end_closes_route :
    (∀ (env : BakeEnv) (saved : AllRoutes) (recs : List Rec) (st : BakeState)
        (r : String),
      List.foldlM (bakeStep env) (initState saved) recs = .ok st →
      st.route = some r → r ≠ "" →
      bake env saved recs =
        .ok (cleanDB (dbAppend st.allRoutes st.continent (some r) st.segment)))
    ∧ (∀ (env : BakeEnv) (saved : AllRoutes) (recs : List Rec) (st : BakeState),
      List.foldlM (bakeStep env) (initState saved) recs = .ok st →
      st.route = some "" →
      bake env saved recs = .ok (cleanDB st.allRoutes))
    ∧ (∀ (env : BakeEnv) (saved : AllRoutes) (recs : List Rec) (st : BakeState),
      List.foldlM (bakeStep env) (initState saved) recs = .ok st →
      st.route = none →
      bake env saved recs = .ok (cleanDB st.allRoutes)) := by
  refine ⟨fun env saved recs st r h hr hne => ?_,
          fun env saved recs st h hr => ?_,
          fun env saved recs st h hr => ?_⟩
  · simp [bake, interpretRoutes, h, closeFinal, hr, hne, Except.map]
  · simp [bake, interpretRoutes, h, closeFinal, hr, Except.map]
  · simp [bake, interpretRoutes, h, closeFinal, hr, Except.map]

/-- The record stream that opens route `R1` and appends two distinct
in-bounds points, without an explicit `endroute`. -/
def recsOpenEnd : List Rec :=
  [.cmd "continent" "Conti1" ("f", 1), .cmd "route" "R1" ("f", 2),
   .pos (posC 100 50), .pos (posC 10 20)]

/-- The interpreter state at the end of `recsOpenEnd`. -/
def stOpenEnd : BakeState :=
  { continent := some "Conti1", bounds := some boundsC, route := some "R1",
    segment := { mode := DrawMode.SOLID, color := none,
                 canvas_points := [(356, 718), (266, 748)] },
    allRoutes := [] }

/-- C7 witness: the stream `continent Conti1; route R1; pos; pos` with
no `endroute` still yields the route `R1` with its two-point segment
in the output database. -/
theorem implicit_end_closes_route_witness :
    bake envC [] recsOpenEnd =
      .ok [(some "Conti1",
            [(some "R1",
              [{ mode := DrawMode.SOLID, color := none,
                 canvas_points := [(356, 718), (266, 748)] }])])] :=
  (implicit_end_closes_route.1 envC [] recsOpenEnd stOpenEnd "R1" rfl rfl
    (by decide)).trans rfl

/-! ### C8: structural errors and the record-stream builder -/

/-- A line whose entry splits on `";;"` into 5 fields: a bad-arity
structural error. -/
def arityErrLine : String := "PosRecorder : a**b**c**d**e"

/-- A line with a position-record shape whose region-corner vector does
not match `RE_VECTOR`. -/
def badVecLine : String := "PosRecorder : A*<oops>*<1,1,1>"

/-- A line that classifies as the bare command `solid`. -/
def solidLine : String := "PosRecorder : solid"

/-- C8 counterexample: a bad vector on one line does NOT merely set the
error flag and continue — `PosRecord.__init__` raises a `ValueError`
that `parse_stream` does not catch, so the scan stops at that line and
the builder never returns its records/flag pair, even though the next
line would have contributed a record on its own. -/
theorem vector_error_stops_scan :
    parse_stream "f" [badVecLine, solidLine] =
      .error "Can't parse region_corner = '<oops>'"
    ∧ parse_stream "f" [solidLine] = .ok ([.cmd "solid" "" ("f", 1)], false) :=
  ⟨rfl, rfl⟩

/-- C8 amended: a bad-arity structural error on one line is recorded
for that line and does not stop the scan: the rest of the stream is
processed and its records returned, with the error flag forced true;
whenever the builder finishes with the flag set, the run fails before
any interpretation begins.  (A bad vector, by contrast, raises and
aborts the scan.) -/
theorem arity_error_continues :
    (∀ (name : String) (lnum : Int) (ln : String) (rest : List String),
      parseLine name lnum ln = .arityErr →
      parseStreamAux name lnum (ln :: rest) =
        (parseStreamAux name (lnum + 1) rest).map (fun x => (x.1, true)))
    ∧ (∀ (env : BakeEnv) (streams : List (String × List String)) (recs : List Rec),
      parseAll streams = .ok (recs, true) →
      runMain env streams = .error "Errors found. Please fix them first!") := by
  constructor
  · intro name lnum ln rest h
    simp [parseStreamAux, h]
  · intro env streams recs h
    simp only [runMain, h]
    rfl

/-- C8 witness: with a bad-arity line followed by a `solid` line, the
builder returns the later line's record together with the raised flag,
and the whole run then fails before `bake`. -/
theorem arity_error_continues_witness :
    parseStreamAux "f" 1 [arityErrLine, solidLine] =
      (parseStreamAux "f" (1 + 1) [solidLine]).map (fun x => (x.1, true))
    ∧ runMain envC [("f", [arityErrLine, solidLine])] =
      .error "Errors found. Please fix them first!" :=
  ⟨arity_error_continues.1 "f" 1 arityErrLine [solidLine] rfl,
   arity_error_continues.2 envC [("f", [arityErrLine, solidLine])]
     [.cmd "solid" "" ("f", 2)] rfl⟩

end SLCarto
